import Mathlib

/-!
Verification of the polymarket-arbitrage-agent repository.

Shallow embedding conventions:
* Python `float` prices, confidences and timestamps are modelled as
  exact rationals (`ℚ`); the spec's numeric scenarios are stated in
  decimal and are exact in this model.
* Python `dict[str, T]` used only through `.get` is modelled as an
  association list with first-match lookup.
* Wall-clock reads (`datetime.utcnow()`, `asyncio.get_event_loop().time()`)
  are passed as explicit parameters.
* Fallible calls return `Except String α` (the `String` is the exception
  message used by the caller's handler).
-/

set_option autoImplicit false

/-- Python `int(x)` on a rational: truncation toward zero. -/
def pyTrunc (q : ℚ) : Int := q.num.tdiv q.den

/-- Python `l[start:]` for an `Int` start index (negative counts from the
end, clamped at 0; `-0` is `0` and selects the whole list). -/
def pySliceFrom {α : Type} (l : List α) (start : Int) : List α :=
  if start < 0 then l.drop ((l.length : Int) + start).toNat else l.drop start.toNat

/-! ## `src/agents/arbitrage_detector.py` and the models it uses -/

/-- Configuration of `ArbitrageDetector.__init__`. -/
structure DetectorConfig where
  confidence_threshold : ℚ
  min_profit_margin : ℚ
deriving DecidableEq, Repr

/-- `src/models/impact.py` `MarketImpact` (timestamp/model/direction
metadata not read by the detector is elided). -/
structure MarketImpact where
  id : String
  news_url : String
  market_id : String
  relevance : ℚ
  confidence : ℚ
  reasoning : String
  expected_magnitude : ℚ
  expected_price : ℚ
deriving DecidableEq, Repr

/-- `MarketImpact.is_significant`: `relevance > 0.1`. -/
def MarketImpact.is_significant (i : MarketImpact) : Bool :=
  decide ((0.1 : ℚ) < i.relevance)

/-- `src/models/market.py` `MarketData`. -/
structure MarketData where
  market_id : String
  yes_price : ℚ
  no_price : ℚ
  timestamp : ℚ
deriving DecidableEq, Repr

/-- `src/models/opportunity.py` `Opportunity` (the `expires_at` field,
always `None` here, is elided; `timestamp` is the creation-time clock
read that pydantic's `default_factory=datetime.utcnow` stores). -/
structure Opportunity where
  id : String
  impact_id : String
  market_id : String
  market_question : String
  current_price : ℚ
  expected_price : ℚ
  discrepancy : ℚ
  potential_profit : ℚ
  confidence : ℚ
  action : String
  timestamp : ℚ
deriving DecidableEq, Repr

/-- `Opportunity.is_profitable`: `potential_profit >= min_profit_margin`. -/
def Opportunity.is_profitable (o : Opportunity) (min_profit_margin : ℚ) : Bool :=
  decide (min_profit_margin ≤ o.potential_profit)

/-- `ArbitrageDetector._generate_opportunity_id`:
`f"opp-{int(timestamp)}-{impact.market_id[:8]}"` with the clock read
passed in as `now`. -/
def generateOpportunityId (impact : MarketImpact) (now : ℚ) : String :=
  "opp-" ++ toString (pyTrunc now) ++ "-" ++ impact.market_id.take 8

/-- `ArbitrageDetector._calculate_opportunity`. Always returns an
opportunity (the Python `None` case is unreachable: the function body
ends in an unconditional `return opportunity`). -/
def calculateOpportunity (cfg : DetectorConfig) (impact : MarketImpact)
    (market_data : MarketData) (now : ℚ) : Opportunity :=
  let current_price := market_data.yes_price
  let expected_price := impact.expected_price
  let discrepancy := |expected_price - current_price|
  let potential_profit := discrepancy * impact.confidence
  let action :=
    if cfg.min_profit_margin ≤ potential_profit ∧ (0.8 : ℚ) ≤ impact.confidence then
      "investigate"
    else if cfg.min_profit_margin * 0.5 ≤ potential_profit then
      "monitor"
    else
      "watch"
  { id := generateOpportunityId impact now
    impact_id := impact.id
    market_id := impact.market_id
    market_question := ""
    current_price := current_price
    expected_price := expected_price
    discrepancy := discrepancy
    potential_profit := potential_profit
    confidence := impact.confidence
    action := action
    timestamp := now }

/-- The body of one iteration of the `detect_opportunities` loop:
`none` means the iteration hit a `continue`, `some o` means it appended
`o` to the result list. -/
def detectOne (cfg : DetectorConfig) (market_data_map : List (String × MarketData))
    (now : ℚ) (impact : MarketImpact) : Option Opportunity :=
  if impact.is_significant = false then none
  else if impact.confidence < cfg.confidence_threshold then none
  else
    match market_data_map.lookup impact.market_id with
    | none => none
    | some market_data =>
      let opportunity := calculateOpportunity cfg impact market_data now
      if opportunity.is_profitable cfg.min_profit_margin then some opportunity
      else none

/-- `ArbitrageDetector.detect_opportunities`, written as the source's
accumulator loop over `impacts`. -/
def detectOpportunities (cfg : DetectorConfig) (impacts : List MarketImpact)
    (market_data_map : List (String × MarketData)) (now : ℚ) : List Opportunity :=
  impacts.foldl (fun opportunities impact =>
    if impact.is_significant = false then opportunities
    else if impact.confidence < cfg.confidence_threshold then opportunities
    else
      match market_data_map.lookup impact.market_id with
      | none => opportunities
      | some market_data =>
        let opportunity := calculateOpportunity cfg impact market_data now
        if opportunity.is_profitable cfg.min_profit_margin then
          opportunities ++ [opportunity]
        else opportunities) []

/-- The fields of an opportunity that do not depend on the clock read:
everything but `id` and `timestamp`. -/
structure OpportunityCore where
  impact_id : String
  market_id : String
  market_question : String
  current_price : ℚ
  expected_price : ℚ
  discrepancy : ℚ
  potential_profit : ℚ
  confidence : ℚ
  action : String
deriving DecidableEq, Repr

/-- Project an opportunity onto its clock-independent fields. -/
def Opportunity.core (o : Opportunity) : OpportunityCore :=
  { impact_id := o.impact_id
    market_id := o.market_id
    market_question := o.market_question
    current_price := o.current_price
    expected_price := o.expected_price
    discrepancy := o.discrepancy
    potential_profit := o.potential_profit
    confidence := o.confidence
    action := o.action }

/-- The concrete scenario of the spec: impact with relevance 0.8,
confidence 0.75, expected price 0.70. -/
def sampleImpact : MarketImpact :=
  { id := "imp-1"
    news_url := "https://example.com/a"
    market_id := "mkt-0001"
    relevance := 0.8
    confidence := 0.75
    reasoning := "news moves the market"
    expected_magnitude := 0.15
    expected_price := 0.7 }

/-- The concrete scenario's market: current yes price 0.55. -/
def sampleMarketData : MarketData :=
  { market_id := "mkt-0001", yes_price := 0.55, no_price := 0.45, timestamp := 0 }

/-- The concrete scenario's thresholds. -/
def sampleConfig : DetectorConfig :=
  { confidence_threshold := 0.7, min_profit_margin := 0.05 }

/-! ## `src/utils/shared_state.py`: bounded stores and service state

The stores are modelled over an arbitrary entry type: `add` first builds a
plain dictionary from the alert/metrics object (pure field copying, which
does not affect storage order or size) and then runs the bounded-append
logic modelled here.  Locking only serialises the list mutation, so the
sequential model captures every interleaving of store operations. -/

/-- `ThreadSafeAlertStore.add`: append, then
`if len > max_size: alerts = alerts[-max_size:]`. -/
def ThreadSafeAlertStore.add {α : Type} (max_size : Int) (alerts : List α) (a : α) :
    List α :=
  let alerts' := alerts ++ [a]
  if max_size < (alerts'.length : Int) then pySliceFrom alerts' (-max_size) else alerts'

/-- `ThreadSafeAlertStore.get_recent`: `list(reversed(alerts[-limit:]))`. -/
def ThreadSafeAlertStore.get_recent {α : Type} (alerts : List α) (limit : Int) :
    List α :=
  (pySliceFrom alerts (-limit)).reverse

/-- `ThreadSafeMetricsStore.add` (same bounded-append logic as the alert
store, with its own capacity). -/
def ThreadSafeMetricsStore.add {α : Type} (max_size : Int) (metrics : List α) (m : α) :
    List α :=
  let metrics' := metrics ++ [m]
  if max_size < (metrics'.length : Int) then pySliceFrom metrics' (-max_size) else metrics'

/-- `ThreadSafeMetricsStore.get_recent`: `list(reversed(metrics[-limit:]))`. -/
def ThreadSafeMetricsStore.get_recent {α : Type} (metrics : List α) (limit : Int) :
    List α :=
  (pySliceFrom metrics (-limit)).reverse

/-- Contents of `/tmp/state/worker_status.json` as read back
(`last_heartbeat` is the parsed timestamp; `none` models an absent or
falsy field). -/
structure WorkerStatusFile where
  worker_running : Bool
  current_cycle : Nat
  last_heartbeat : Option ℚ
deriving DecidableEq, Repr

/-- The in-process flags of `ServiceState`. -/
structure ServiceStateData where
  worker_running : Bool
  web_server_running : Bool
deriving DecidableEq, Repr

/-- `ServiceState._read_worker_status_file` with the clock read `now` and
the file contents (or `none` for a missing/unreadable file) explicit:
returns the data only when the heartbeat exists and is under 30 seconds
old, else `None`. -/
def readWorkerStatusFile (now : ℚ) (file : Option WorkerStatusFile) :
    Option WorkerStatusFile :=
  match file with
  | none => none
  | some data =>
    match data.last_heartbeat with
    | none => none
    | some heartbeat => if now - heartbeat < 30 then some data else none

/-- `ServiceState.is_healthy`: worker flag from the status file when the
read succeeds, else the in-process flag; and the web-server flag. -/
def ServiceState.is_healthy (st : ServiceStateData) (now : ℚ)
    (file : Option WorkerStatusFile) : Bool :=
  (match readWorkerStatusFile now file with
   | some data => data.worker_running
   | none => st.worker_running) && st.web_server_running

/-- The `worker_running` field of `ServiceState.get_status`: file value
when the read succeeds, else the in-process flag. -/
def ServiceState.statusWorkerRunning (st : ServiceStateData) (now : ℚ)
    (file : Option WorkerStatusFile) : Bool :=
  match readWorkerStatusFile now file with
  | some data => data.worker_running
  | none => st.worker_running

/-- A status file whose heartbeat was written at time 0. -/
def staleFile : WorkerStatusFile :=
  { worker_running := true, current_cycle := 7, last_heartbeat := some 0 }

/-! ## `src/tools/polymarket_client.py`: rate limiter

`PolymarketGammaClient._request` keeps a sliding window `request_times`.
One call, arriving at event-loop time `now`, prunes entries older than one
second; if the pruned window is full it sleeps until one second after the
window's oldest entry, then clears the whole window; finally it records
the pre-sleep `now` and issues the HTTP request.  `rlStep` returns the
time the request is actually issued and the new window. -/

/-- One pass through the rate-limiting section of `_request`. -/
def rlStep (rate_limit : Nat) (request_times : List ℚ) (now : ℚ) : ℚ × List ℚ :=
  let pruned := request_times.filter (fun t => now - t < 1)
  if rate_limit ≤ pruned.length then
    let sleep_time := 1 - (now - pruned.headD 0)
    let issue := if 0 < sleep_time then now + sleep_time else now
    (issue, [now])
  else
    (now, pruned ++ [now])

/-- Run a sequence of requests whose event-loop arrival times are given,
collecting the times at which the HTTP requests are issued. -/
def rlRun (rate_limit : Nat) (arrivals : List ℚ) : List ℚ :=
  (arrivals.foldl (fun (st : List ℚ × List ℚ) a =>
    let r := rlStep rate_limit st.2 a
    (st.1 ++ [r.1], r.2)) ([], [])).1

/-- A sequence of arrivals is realisable by strictly sequential callers
when each request arrives no earlier than the previous request was
issued: every zipped pair of the k-th issue time with the (k+1)-st
arrival time is ordered. -/
def rlSequential (arrivals issues : List ℚ) : Prop :=
  ∀ p ∈ issues.zip (arrivals.drop 1), p.1 ≤ p.2

/-! ## `src/tools/polymarket_client.py`: request classification and retry

`_request` maps a non-2xx response (`httpx.HTTPStatusError`) to
`PolymarketClientError(f"HTTP {status}: {text}")` and a network failure
(`httpx.NetworkError`) to `PolymarketClientError(f"Network error: {e}")` -
one and the same exception type.  `get_markets` is decorated with
`@retry(stop=stop_after_attempt(3), wait=wait_exponential(...),
retry=retry_if_exception_type(PolymarketClientError))`, so it retries on
every `PolymarketClientError`.  The wall-clock backoff waits are not
modelled; attempts are fed from a script indexed by attempt number. -/

/-- What the HTTP layer does on one attempt. -/
inductive HttpAttempt where
  | ok (body : String)
  | statusErr (status : Nat) (body : String)
  | netErr (msg : String)
deriving DecidableEq, Repr

/-- `_request`: classification of one attempt's outcome.  Errors are
`PolymarketClientError` values, modelled by their message. -/
def requestOutcome : HttpAttempt → Except String String
  | .ok body => .ok body
  | .statusErr status body => .error ("HTTP " ++ toString status ++ ": " ++ body)
  | .netErr msg => .error ("Network error: " ++ msg)

/-- The tenacity loop: up to `remaining` attempts, retrying while the
attempt raises `PolymarketClientError` (every error `_request` raises
here).  Returns the final outcome and the number of attempts made. -/
def tenacityAttempts (script : Nat → HttpAttempt) :
    Nat → Nat → Except String String × Nat
  | 0, idx => (.error "no attempts", idx)
  | remaining + 1, idx =>
    match requestOutcome (script idx) with
    | .ok v => (.ok v, idx + 1)
    | .error e =>
      if remaining = 0 then (.error e, idx + 1)
      else tenacityAttempts script remaining (idx + 1)

/-- `get_markets` under its `@retry(stop=stop_after_attempt(3), ...)`
decorator. -/
def getMarketsWithRetry (script : Nat → HttpAttempt) : Except String String × Nat :=
  tenacityAttempts script 3 0

/-- The attempt script of the counterexample: a 500 response followed by
a success. -/
def scriptHttp500ThenOk : Nat → HttpAttempt
  | 0 => .statusErr 500 "Internal Server Error"
  | _ => .ok "markets"

/-! ## `src/workflows/mvp_workflow.py`: cycle pipeline

The five graph nodes run in a fixed chain.  Each node's external effects
(news search, market fetch, per-market price fetch, reasoning and alert
creation) are passed in as explicit results/oracles; `Except.error` is
the exception the Python code would catch.  The object-level caches
(`news_cache` etc.) enter as the `cache` parameter of the news stage;
logging, console printing and JSON export are elided. -/

/-- `src/models/news.py` `NewsArticle` (fields the workflow reads). -/
structure NewsArticle where
  url : String
  title : String
  published_date : Option ℚ
deriving DecidableEq, Repr

/-- `src/models/market.py` `Market` (fields the workflow reads). -/
structure Market where
  market_id : String
  question : String
deriving DecidableEq, Repr

/-- `ArbitrageState`, the LangGraph state dictionary. -/
structure CycleState (α : Type) where
  search_query : String
  news_articles : List NewsArticle
  markets : List Market
  market_data : List (String × MarketData)
  market_impacts : List MarketImpact
  opportunities : List Opportunity
  alerts : List α
  cycle_start_time : ℚ
  cycle_end_time : Option ℚ
  errors : List String
  messages : List String

/-- The initial state built by `run_cycle`. -/
def initialCycleState (α : Type) (query : String) (start : ℚ) : CycleState α :=
  { search_query := query
    news_articles := []
    markets := []
    market_data := []
    market_impacts := []
    opportunities := []
    alerts := []
    cycle_start_time := start
    cycle_end_time := none
    errors := []
    messages := [] }

/-- `ArbitrageDetectionGraph.search_news`: on success, secondary age
validation then dedup against the news cache; on exception, append an
error string and substitute the empty news list. -/
def searchNews {α : Type} (now max_age : ℚ) (cache : List String)
    (result : Except String (List NewsArticle)) (st : CycleState α) : CycleState α :=
  match result with
  | .error e =>
    { st with errors := st.errors ++ ["News search failed: " ++ e]
              news_articles := [] }
  | .ok articles =>
    let validated := articles.filter (fun a =>
      match a.published_date with
      | some d => decide (now - d ≤ max_age)
      | none => false)
    let deduped := validated.foldl (fun (p : List String × List NewsArticle) a =>
      if a.url ∈ p.1 then p else (p.1 ++ [a.url], p.2 ++ [a])) (cache, [])
    { st with news_articles := deduped.2
              messages := st.messages ++
                ["Found " ++ toString articles.length ++ " articles, " ++
                 toString validated.length ++ " passed validation, " ++
                 toString deduped.2.length ++ " new"] }

/-- `ArbitrageDetectionGraph.fetch_markets`: on success, build the price
map over the first 50 markets, skipping failed or zero-priced fetches;
on exception, append an error string and substitute empty results. -/
def fetchMarkets {α : Type} (marketsResult : Except String (List Market))
    (fetchData : Market → Except String MarketData) (st : CycleState α) : CycleState α :=
  match marketsResult with
  | .error e =>
    { st with errors := st.errors ++ ["Market fetch failed: " ++ e]
              markets := []
              market_data := [] }
  | .ok markets =>
    let market_data_map := (markets.take 50).foldl (fun m market =>
      match fetchData market with
      | .ok market_data =>
        if 0 < market_data.yes_price then m ++ [(market.market_id, market_data)] else m
      | .error _ => m) []
    { st with markets := markets, market_data := market_data_map }

/-- `ArbitrageDetectionGraph.analyze_impacts`: at most 5 news x 10
markets, keeping significant impacts; per-pair failures are swallowed. -/
def analyzeImpacts {α : Type}
    (analyze : NewsArticle → Market → Except String MarketImpact)
    (st : CycleState α) : CycleState α :=
  let max_news := min st.news_articles.length 5
  let max_markets := min st.markets.length 10
  let impacts := (st.news_articles.take max_news).foldl (fun acc news =>
    (st.markets.take max_markets).foldl (fun acc2 market =>
      match analyze news market with
      | .ok impact => if impact.is_significant then acc2 ++ [impact] else acc2
      | .error _ => acc2) acc) []
  { st with market_impacts := impacts }

/-- `ArbitrageDetectionGraph.detect_opportunities` node: runs the (total)
detector; its `except` branch is unreachable in this model. -/
def detectOpportunitiesNode {α : Type} (cfg : DetectorConfig) (now : ℚ)
    (st : CycleState α) : CycleState α :=
  { st with opportunities := detectOpportunities cfg st.market_impacts st.market_data now }

/-- `ArbitrageDetectionGraph.generate_alerts`: for each opportunity, look
up its impact, news article and market, create the alert (failures are
swallowed per opportunity), then set `cycle_end_time`. -/
def generateAlerts {α : Type}
    (create_alert : Opportunity → NewsArticle → Market → String → Except String α)
    (now : ℚ) (st : CycleState α) : CycleState α :=
  let alerts := st.opportunities.foldl (fun acc opportunity =>
    match st.market_impacts.find? (fun i => i.id == opportunity.impact_id) with
    | none => acc
    | some impact =>
      match st.news_articles.find? (fun n => n.url == impact.news_url) with
      | none => acc
      | some news =>
        match st.markets.find? (fun m => m.market_id == opportunity.market_id) with
        | none => acc
        | some market =>
          match create_alert opportunity news market impact.reasoning with
          | .ok alert => acc ++ [alert]
          | .error _ => acc) []
  { st with alerts := alerts, cycle_end_time := some now }

/-- `run_cycle`: the compiled graph runs the five nodes in a chain on the
initial state.  `start` is the cycle start clock read, `now` the clock
read during the middle stages, `endTime` the clock read that
`generate_alerts` stores. -/
def runCycle (α : Type) (cfg : DetectorConfig) (query : String)
    (start now max_age endTime : ℚ) (cache : List String)
    (newsResult : Except String (List NewsArticle))
    (marketsResult : Except String (List Market))
    (fetchData : Market → Except String MarketData)
    (analyze : NewsArticle → Market → Except String MarketImpact)
    (create_alert : Opportunity → NewsArticle → Market → String → Except String α) :
    CycleState α :=
  generateAlerts create_alert endTime
    (detectOpportunitiesNode cfg now
      (analyzeImpacts analyze
        (fetchMarkets marketsResult fetchData
          (searchNews now max_age cache newsResult (initialCycleState α query start)))))

/-! ## `src/tools/reasoning_client.py`: `repair_json`

`repair_json` first tries `json.loads` on the input; on failure it tries
ten textual repairs, EACH APPLIED TO THE ORIGINAL STRING, parsing after
each and returning the first success, or `None` when all fail (the
declared `dict` return type and the "empty dict" docstring
notwithstanding).

`json.loads` (CPython defaults: strict strings, `NaN`/`Infinity`
constants, no trailing commas, full-input match) is modelled by an
iterative rendering of its grammar; numbers are kept as their lexeme.
The regex repairs are modelled by direct string transformations whose
semantics were derived from the `re` matching rules for each concrete
pattern; `\w` and `\s` are modelled over their ASCII ranges. -/

/-- A parsed JSON value as `json.loads` produces it (numbers kept as the
matched lexeme; duplicate object keys kept in order rather than
last-wins, which does not affect parse success). -/
inductive PyJson where
  | null
  | bool (b : Bool)
  | num (lexeme : String)
  | str (s : String)
  | arr (elems : List PyJson)
  | obj (members : List (String × PyJson))

/-- JSON inter-token whitespace (`' '`, `'\t'`, `'\n'`, `'\r'`). -/
def jsonWs (c : Char) : Bool :=
  c == ' ' || c == '\t' || c == '\n' || c == '\r'

/-- Python regex `\s` over ASCII. -/
def pyRegexWs (c : Char) : Bool :=
  c == ' ' || c == '\t' || c == '\n' || c == '\r' || c == '\x0b' || c == '\x0c'

/-- Drop leading JSON whitespace. -/
def skipJsonWs : List Char → List Char
  | c :: rest => if jsonWs c then skipJsonWs rest else c :: rest
  | [] => []

/-- Strip a literal prefix. -/
def stripLit : List Char → List Char → Option (List Char)
  | [], l => some l
  | c :: cs, d :: ds => if c = d then stripLit cs ds else none
  | _ :: _, [] => none

/-- Hexadecimal digit value. -/
def hexVal (c : Char) : Option Nat :=
  if c.isDigit then some (c.toNat - 48)
  else if 'a' ≤ c ∧ c ≤ 'f' then some (c.toNat - 87)
  else if 'A' ≤ c ∧ c ≤ 'F' then some (c.toNat - 55)
  else none

/-- Four hex digits of a `\uXXXX` escape. -/
def parseHex4 : List Char → Option (Nat × List Char)
  | a :: b :: c :: d :: rest =>
    match hexVal a, hexVal b, hexVal c, hexVal d with
    | some x, some y, some z, some w => some (((x * 16 + y) * 16 + z) * 16 + w, rest)
    | _, _, _, _ => none
  | _ => none

/-- JSON string body after the opening quote, per CPython's strict
`py_scanstring`: unescaped control characters below 0x20 are rejected,
the eight named escapes and `\uXXXX` (with surrogate pairing) are
decoded.  A lone surrogate, which Python keeps as-is, is mapped to
`Char.ofNat`'s fallback since Lean chars are scalar values; no claim
depends on it.  Returns the content and the rest after the closing
quote. -/
def parseStringBody : Nat → List Char → Option (List Char × List Char)
  | 0, _ => none
  | _ + 1, [] => none
  | fuel + 1, c :: rest =>
    if c = '"' then some ([], rest)
    else if c = '\\' then
      match rest with
      | [] => none
      | e :: r2 =>
        let push (d : Char) (r : List Char) : Option (List Char × List Char) :=
          (parseStringBody fuel r).map (fun p => (d :: p.1, p.2))
        if e = '"' then push '"' r2
        else if e = '\\' then push '\\' r2
        else if e = '/' then push '/' r2
        else if e = 'b' then push '\x08' r2
        else if e = 'f' then push '\x0c' r2
        else if e = 'n' then push '\n' r2
        else if e = 'r' then push '\r' r2
        else if e = 't' then push '\t' r2
        else if e = 'u' then
          match parseHex4 r2 with
          | none => none
          | some (hi, r3) =>
            if 0xd800 ≤ hi ∧ hi ≤ 0xdbff then
              match r3 with
              | '\\' :: 'u' :: r4 =>
                match parseHex4 r4 with
                | some (lo, r5) =>
                  if 0xdc00 ≤ lo ∧ lo ≤ 0xdfff then
                    push (Char.ofNat (0x10000 + (hi - 0xd800) * 0x400 + (lo - 0xdc00))) r5
                  else push (Char.ofNat hi) r3
                | none => push (Char.ofNat hi) r3
              | _ => push (Char.ofNat hi) r3
            else push (Char.ofNat hi) r2
        else none
    else if c.toNat < 0x20 then none
    else (parseStringBody fuel rest).map (fun p => (c :: p.1, p.2))

/-- Longest digit run. -/
def spanDigits (l : List Char) : List Char × List Char :=
  l.span (fun c => c.isDigit)

/-- A JSON number lexeme per CPython's
`(-?(?:0|[1-9]\d*))(\.\d+)?([eE][-+]?\d+)?`: returns the lexeme and the
rest, or `none` when no number starts here. -/
def parseNumberLexeme (l : List Char) : Option (String × List Char) :=
  let (neg, l1) : List Char × List Char :=
    match l with
    | '-' :: r => (['-'], r)
    | _ => ([], l)
  let ipart : Option (List Char × List Char) :=
    match l1 with
    | '0' :: r => some (['0'], r)
    | c :: r =>
      if c.isDigit then
        let p := spanDigits r
        some (c :: p.1, p.2)
      else none
    | [] => none
  match ipart with
  | none => none
  | some (ip, r1) =>
    let (frac, r2) : List Char × List Char :=
      match r1 with
      | '.' :: r =>
        match spanDigits r with
        | ([], _) => ([], r1)
        | (ds, r') => ('.' :: ds, r')
      | _ => ([], r1)
    let (ex, r3) : List Char × List Char :=
      match r2 with
      | e :: r =>
        if e = 'e' ∨ e = 'E' then
          let (sgn, rs) : List Char × List Char :=
            match r with
            | s :: r' => if s = '+' ∨ s = '-' then ([s], r') else ([], r)
            | [] => ([], r)
          match spanDigits rs with
          | ([], _) => ([], r2)
          | (ds, r') => (e :: sgn ++ ds, r')
        else ([], r2)
      | [] => ([], r2)
    some (String.mk (neg ++ ip ++ frac ++ ex), r3)

/-- A pending container during iterative parsing. -/
inductive JsonFrame where
  | arrF (acc : List PyJson)
  | objF (acc : List (String × PyJson)) (key : String)

/-- Parser mode: about to read a value, or delivering a finished value
to the enclosing frame. -/
inductive JsonMode where
  | value
  | fin (v : PyJson)

/-- The iterative JSON parser: one step per fuel unit.  In `value` mode
it reads the next value (pushing a frame for a non-empty container); in
`fin v` mode it delivers `v` to the innermost frame or, with an empty
stack, returns it with the remaining input. -/
def parseLoop : Nat → JsonMode → List Char → List JsonFrame →
    Option (PyJson × List Char)
  | 0, _, _, _ => none
  | fuel + 1, JsonMode.value, rest, stack =>
    match skipJsonWs rest with
    | [] => none
    | l@(c :: r) =>
      if c = '"' then
        match parseStringBody (r.length + 1) r with
        | some (cs, r') => parseLoop fuel (JsonMode.fin (PyJson.str (String.mk cs))) r' stack
        | none => none
      else if c = '\x7b' then
        match skipJsonWs r with
        | '\x7d' :: r2 => parseLoop fuel (JsonMode.fin (PyJson.obj [])) r2 stack
        | '"' :: r2 =>
          match parseStringBody (r2.length + 1) r2 with
          | some (key, r3) =>
            match skipJsonWs r3 with
            | ':' :: r4 =>
              parseLoop fuel JsonMode.value r4 (JsonFrame.objF [] (String.mk key) :: stack)
            | _ => none
          | none => none
        | _ => none
      else if c = '[' then
        match skipJsonWs r with
        | ']' :: r2 => parseLoop fuel (JsonMode.fin (PyJson.arr [])) r2 stack
        | l2 => parseLoop fuel JsonMode.value l2 (JsonFrame.arrF [] :: stack)
      else
        match stripLit "null".data l with
        | some r' => parseLoop fuel (JsonMode.fin PyJson.null) r' stack
        | none =>
        match stripLit "true".data l with
        | some r' => parseLoop fuel (JsonMode.fin (PyJson.bool true)) r' stack
        | none =>
        match stripLit "false".data l with
        | some r' => parseLoop fuel (JsonMode.fin (PyJson.bool false)) r' stack
        | none =>
        match stripLit "NaN".data l with
        | some r' => parseLoop fuel (JsonMode.fin (PyJson.num "NaN")) r' stack
        | none =>
        match stripLit "Infinity".data l with
        | some r' => parseLoop fuel (JsonMode.fin (PyJson.num "Infinity")) r' stack
        | none =>
        match stripLit "-Infinity".data l with
        | some r' => parseLoop fuel (JsonMode.fin (PyJson.num "-Infinity")) r' stack
        | none =>
        match parseNumberLexeme l with
        | some (lex, r') => parseLoop fuel (JsonMode.fin (PyJson.num lex)) r' stack
        | none => none
  | fuel + 1, JsonMode.fin v, rest, stack =>
    match stack with
    | [] => some (v, rest)
    | JsonFrame.arrF acc :: stack' =>
      match skipJsonWs rest with
      | ',' :: r2 => parseLoop fuel JsonMode.value r2 (JsonFrame.arrF (acc ++ [v]) :: stack')
      | ']' :: r2 => parseLoop fuel (JsonMode.fin (PyJson.arr (acc ++ [v]))) r2 stack'
      | _ => none
    | JsonFrame.objF acc key :: stack' =>
      match skipJsonWs rest with
      | ',' :: r2 =>
        match skipJsonWs r2 with
        | '"' :: r3 =>
          match parseStringBody (r3.length + 1) r3 with
          | some (k2, r4) =>
            match skipJsonWs r4 with
            | ':' :: r5 =>
              parseLoop fuel JsonMode.value r5
                (JsonFrame.objF (acc ++ [(key, v)]) (String.mk k2) :: stack')
            | _ => none
          | none => none
        | _ => none
      | '\x7d' :: r2 => parseLoop fuel (JsonMode.fin (PyJson.obj (acc ++ [(key, v)]))) r2 stack'
      | _ => none

/-- `json.loads` on a string: parse one value and require only
whitespace after it. -/
def jsonLoads (s : String) : Option PyJson :=
  match parseLoop (2 * s.length + 2) JsonMode.value s.data [] with
  | none => none
  | some (v, rest) =>
    match skipJsonWs rest with
    | [] => some v
    | _ => none

/-- Repair 1, `re.sub(r'"([^"]*?)$', r'"\1"', s)`: the match starts at
the last `"` in the string; the lazy group stops at `$`, which sits
before one trailing newline if there is one, else at the end.  The
effect is to close the string opened by the last quote. -/
def repairTruncatedString (s : String) : String :=
  match s.data.reverse.span (fun c => c != '"') with
  | (_, []) => s
  | (tailRev, _quote :: preRev) =>
    match tailRev with
    | '\n' :: groupRev =>
      String.mk (preRev.reverse ++ '"' :: groupRev.reverse ++ ['"', '\n'])
    | _ => String.mk (preRev.reverse ++ '"' :: tailRev.reverse ++ ['"'])

/-- Worker for repair 2: leftmost scan for `"` `\s*` (containing a
newline) `"`, replacing the match with `", "`. -/
def repairMissingCommasGo : Nat → List Char → List Char
  | 0, l => l
  | _ + 1, [] => []
  | fuel + 1, c :: rest =>
    if c = '"' then
      let p := rest.span pyRegexWs
      if p.1.contains '\n' then
        match p.2 with
        | '"' :: r2 => '"' :: ',' :: ' ' :: '"' :: repairMissingCommasGo fuel r2
        | _ => c :: repairMissingCommasGo fuel rest
      else c :: repairMissingCommasGo fuel rest
    else c :: repairMissingCommasGo fuel rest

/-- Repair 2, `re.sub(r'"\s*\n\s*"', '", "', s)`. -/
def repairMissingCommas (s : String) : String :=
  String.mk (repairMissingCommasGo (s.length + 1) s.data)

/-- Python `str.replace` for a two-character pattern: non-overlapping,
left to right. -/
def replacePair (a b : Char) (rep : List Char) : List Char → List Char
  | x :: y :: rest =>
    if x = a ∧ y = b then rep ++ replacePair a b rep rest
    else x :: replacePair a b rep (y :: rest)
  | l => l

/-- Worker for the regex part of repair 3: leftmost scan for `,` `\s*`
`}`, replaced by `}`. -/
def repairTrailingCommasGo : Nat → List Char → List Char
  | 0, l => l
  | _ + 1, [] => []
  | fuel + 1, c :: rest =>
    if c = ',' then
      let p := rest.span pyRegexWs
      match p.2 with
      | '\x7d' :: r2 => '\x7d' :: repairTrailingCommasGo fuel r2
      | _ => c :: repairTrailingCommasGo fuel rest
    else c :: repairTrailingCommasGo fuel rest

/-- Repair 3, `re.sub(r',\s*}', '}', s).replace(',]', ']')`. -/
def repairTrailingCommas (s : String) : String :=
  String.mk (replacePair ',' ']' [']'] (repairTrailingCommasGo (s.length + 1) s.data))

/-- Python regex `\w` over ASCII. -/
def pyWordChar (c : Char) : Bool :=
  c.isAlphanum || c == '_'

/-- Worker for repair 4: a match is a maximal `\w+` run followed by
`\s*` and `:`; no match can start inside a run that fails the test, so
scanning resumes after the run. -/
def repairUnquotedKeysGo : Nat → List Char → List Char
  | 0, l => l
  | _ + 1, [] => []
  | fuel + 1, c :: rest =>
    if pyWordChar c then
      let p := rest.span pyWordChar
      let q := p.2.span pyRegexWs
      match q.2 with
      | ':' :: r2 => '"' :: c :: p.1 ++ '"' :: ':' :: repairUnquotedKeysGo fuel r2
      | _ => c :: (p.1 ++ repairUnquotedKeysGo fuel p.2)
    else c :: repairUnquotedKeysGo fuel rest

/-- Repair 4, `re.sub(r'(\w+)\s*:', r'"\1":', s)`. -/
def repairUnquotedKeys (s : String) : String :=
  String.mk (repairUnquotedKeysGo (s.length + 1) s.data)

/-- Repair 5, `s.replace("'", '"')`. -/
def repairSingleQuotes (s : String) : String :=
  String.mk (s.data.map (fun c => if c = '\x27' then '"' else c))

/-- Repair 6, `s + '}' if s.count('{') > s.count('}') else s`. -/
def repairMissingBrace (s : String) : String :=
  if s.data.count '\x7d' < s.data.count '\x7b' then s ++ "\x7d" else s

/-- Repair 7, `s + ']' if s.count('[') > s.count(']') else s`. -/
def repairMissingBracket (s : String) : String :=
  if s.data.count ']' < s.data.count '[' then s ++ "]" else s

/-- Repair 8, `re.sub(r'[\x00-\x1f\x7f-\x9f]', '', s)`. -/
def repairControlChars (s : String) : String :=
  String.mk (s.data.filter (fun c =>
    !(c.toNat ≤ 0x1f || (0x7f ≤ c.toNat && c.toNat ≤ 0x9f))))

/-- Repair 9, `s.replace('\\"', '"').replace('\\n', ' ')`. -/
def repairEscapedQuotes (s : String) : String :=
  String.mk (replacePair '\\' 'n' [' '] (replacePair '\\' '"' ['"'] s.data))

/-- Longest run of non-brace characters (`[^{}]*`, which cannot
backtrack into a shorter run here because the next token is a brace). -/
def spanNonBrace (l : List Char) : List Char × List Char :=
  l.span (fun c => !(c == '\x7b' || c == '\x7d'))

/-- The inner group of repair 10 anchored at the head of `l`:
`\{[^{}]*\{[^{}]*\}[^{}]*\}`. -/
def repairExtractAt (l : List Char) : Option (List Char) :=
  match l with
  | '\x7b' :: r =>
    let p1 := spanNonBrace r
    match p1.2 with
    | '\x7b' :: r2 =>
      let p2 := spanNonBrace r2
      match p2.2 with
      | '\x7d' :: r3 =>
        let p3 := spanNonBrace r3
        match p3.2 with
        | '\x7d' :: _ =>
          some ('\x7b' :: p1.1 ++ '\x7b' :: p2.1 ++ '\x7d' :: p3.1 ++ ['\x7d'])
        | _ => none
      | _ => none
    | _ => none
  | _ => none

/-- Leftmost position where the repair-10 group matches. -/
def repairExtractGo : Nat → List Char → Option (List Char)
  | 0, _ => none
  | _ + 1, [] => none
  | fuel + 1, l@(_ :: rest) =>
    match repairExtractAt l with
    | some g => some g
    | none => repairExtractGo fuel rest

/-- Repair 10, `re.sub(r'^.*?(\{[^{}]*\{[^{}]*\}[^{}]*\}).*$', r'\1', s,
flags=re.DOTALL)`: with `^`/`$` and DOTALL the whole string is replaced
by the leftmost such group when one exists. -/
def repairExtractNested (s : String) : String :=
  match repairExtractGo (s.length + 1) s.data with
  | some g => String.mk g
  | none => s

/-- The `repairs` list of `repair_json`, in source order. -/
def repairs : List (String → String) :=
  [repairTruncatedString, repairMissingCommas, repairTrailingCommas,
   repairUnquotedKeys, repairSingleQuotes, repairMissingBrace,
   repairMissingBracket, repairControlChars, repairEscapedQuotes,
   repairExtractNested]

/-- The `for i, repair in enumerate(repairs)` loop: each repair is
applied to the ORIGINAL string; the first successful parse is returned.
The `except` clause catches the parse failure, modelled by `none`. -/
def tryRepairs (s : String) : List (String → String) → Option PyJson
  | [] => none
  | r :: rs =>
    match jsonLoads (r s) with
    | some v => some v
    | none => tryRepairs s rs

/-- `repair_json`: plain parse, then the repair loop, `None` when
everything fails. -/
def repair_json (s : String) : Option PyJson :=
  match jsonLoads s with
  | some v => some v
  | none => tryRepairs s repairs

/-- Modelled from the spec: the spec describes the repairs as an
"idempotent chain ... re-attempting a parse after each repair", i.e.
each repair applied to the OUTPUT of the previous one.  This definition
follows the spec's words, for comparison with `repair_json` above. -/
def tryRepairsChained : String → List (String → String) → Option PyJson
  | _, [] => none
  | cur, r :: rs =>
    let cur' := r cur
    match jsonLoads cur' with
    | some v => some v
    | none => tryRepairsChained cur' rs

/-- Modelled from the spec: `repair_json` as the spec words it, with the
repairs applied cumulatively. -/
def repairJsonChained (s : String) : Option PyJson :=
  match jsonLoads s with
  | some v => some v
  | none => tryRepairsChained s repairs

/-- The counterexample input `{'a': 1,}`: single-quoted key AND a
trailing comma, so no single repair of the original fixes it, while the
chain (trailing-comma repair, then quote normalisation) parses. -/
def jstrBad : String :=
  String.mk ['\x7b', '\x27', 'a', '\x27', ':', ' ', '1', ',', '\x7d']

/-! ## Theorems -/

/-- The detector's accumulator loop equals a `filterMap` of its loop
body, for any starting accumulator. -/
theorem detect_foldl_eq (cfg : DetectorConfig) (market_data_map : List (String × MarketData))
    (now : ℚ) (l : List MarketImpact) (acc : List Opportunity) :
    l.foldl (fun opportunities impact =>
      if impact.is_significant = false then opportunities
      else if impact.confidence < cfg.confidence_threshold then opportunities
      else
        match market_data_map.lookup impact.market_id with
        | none => opportunities
        | some market_data =>
          let opportunity := calculateOpportunity cfg impact market_data now
          if opportunity.is_profitable cfg.min_profit_margin then
            opportunities ++ [opportunity]
          else opportunities) acc
    = acc ++ l.filterMap (detectOne cfg market_data_map now) := by
  induction l generalizing acc with
  | nil => simp
  | cons i is ih =>
    simp only [List.foldl_cons, List.filterMap_cons]
    rw [ih]
    unfold detectOne
    split_ifs with h1 h2
    · simp
    · simp
    · cases hmd : market_data_map.lookup i.market_id with
      | none => simp
      | some market_data =>
        simp only
        split_ifs with h3
        · simp
        · simp

/-- `detect_opportunities` as a `filterMap` over the input assessments. -/
theorem detectOpportunities_eq_filterMap (cfg : DetectorConfig) (impacts : List MarketImpact)
    (market_data_map : List (String × MarketData)) (now : ℚ) :
    detectOpportunities cfg impacts market_data_map now =
      impacts.filterMap (detectOne cfg market_data_map now) := by
  simpa [detectOpportunities] using
    detect_foldl_eq cfg market_data_map now impacts []

/-- Mapping over a `filterMap` is a sublist of mapping over the whole
input, when the partial function respects the projections. -/
theorem filterMap_map_sublist {α β γ : Type} (g : α → Option β) (f : β → γ) (h : α → γ)
    (l : List α) (hg : ∀ a b, g a = some b → f b = h a) :
    ((l.filterMap g).map f).Sublist (l.map h) := by
  induction l with
  | nil => simp
  | cons a l ih =>
    cases hga : g a with
    | none => simpa [hga] using List.Sublist.cons (h a) ih
    | some b =>
      simpa [hga, hg a b hga] using List.Sublist.cons₂ (h a) ih

/-- C1: every opportunity in the list returned by
`ArbitrageDetector.detect_opportunities` has
`potential_profit >= min_profit_margin`; one below the margin is never
returned (the append is guarded by `is_profitable`). -/
theorem detectOpportunities_profit_gate (cfg : DetectorConfig)
    (impacts : List MarketImpact) (market_data_map : List (String × MarketData))
    (now : ℚ) (o : Opportunity)
    (ho : o ∈ detectOpportunities cfg impacts market_data_map now) :
    cfg.min_profit_margin ≤ o.potential_profit := by
  rw [detectOpportunities_eq_filterMap] at ho
  obtain ⟨i, -, hi⟩ := List.mem_filterMap.mp ho
  unfold detectOne at hi
  split_ifs at hi
  split at hi
  · exact absurd hi (by simp)
  · next md _ =>
    replace hi : (if (calculateOpportunity cfg i md now).is_profitable
        cfg.min_profit_margin = true
        then some (calculateOpportunity cfg i md now) else none) = some o := hi
    by_cases hprof : (calculateOpportunity cfg i md now).is_profitable
        cfg.min_profit_margin = true
    · rw [if_pos hprof] at hi
      have hoeq : calculateOpportunity cfg i md now = o := Option.some.inj hi
      subst hoeq
      unfold Opportunity.is_profitable at hprof
      exact of_decide_eq_true hprof
    · rw [if_neg hprof] at hi
      exact absurd hi (by simp)

/-- The scenario input makes the detector return exactly the opportunity
computed by `_calculate_opportunity`, for any clock read. -/
theorem sampleDetect_eq (now : ℚ) :
    detectOpportunities sampleConfig [sampleImpact] [("mkt-0001", sampleMarketData)] now
      = [calculateOpportunity sampleConfig sampleImpact sampleMarketData now] := by
  have h1 : sampleImpact.is_significant = true := by
    simp only [MarketImpact.is_significant, sampleImpact, decide_eq_true_eq]
    norm_num
  have h2 : ¬ sampleImpact.confidence < sampleConfig.confidence_threshold := by
    simp only [sampleImpact, sampleConfig]
    norm_num
  have h3 : List.lookup sampleImpact.market_id [("mkt-0001", sampleMarketData)]
      = some sampleMarketData := by
    simp [sampleImpact, List.lookup]
  have h4 : (calculateOpportunity sampleConfig sampleImpact sampleMarketData now).is_profitable
      sampleConfig.min_profit_margin = true := by
    simp only [Opportunity.is_profitable, calculateOpportunity, sampleConfig, sampleImpact,
      sampleMarketData, decide_eq_true_eq]
    rw [abs_of_nonneg] <;> norm_num
  rw [detectOpportunities_eq_filterMap]
  simp only [List.filterMap_cons, List.filterMap_nil]
  unfold detectOne
  simp only [h1, h2, h3, h4, if_neg, if_true, Bool.true_eq_false, if_false,
    ite_false, ite_true]

/-- Witness for C1 at the concrete scenario input. -/
theorem detectOpportunities_profit_gate_witness :
    sampleConfig.min_profit_margin ≤
      (calculateOpportunity sampleConfig sampleImpact sampleMarketData 0).potential_profit :=
  detectOpportunities_profit_gate sampleConfig [sampleImpact]
    [("mkt-0001", sampleMarketData)] 0
    (calculateOpportunity sampleConfig sampleImpact sampleMarketData 0)
    (by rw [sampleDetect_eq 0]; exact List.mem_singleton_self _)

/-- The scenario's opportunity, field by field: discrepancy 0.15,
potential profit 0.1125, action "monitor" (confidence 0.75 fails the
0.8 bar that "investigate" requires). -/
theorem sampleOpportunity_eq (now : ℚ) :
    calculateOpportunity sampleConfig sampleImpact sampleMarketData now =
      { id := generateOpportunityId sampleImpact now
        impact_id := "imp-1"
        market_id := "mkt-0001"
        market_question := ""
        current_price := 0.55
        expected_price := 0.7
        discrepancy := 0.15
        potential_profit := 0.1125
        confidence := 0.75
        action := "monitor"
        timestamp := now } := by
  unfold calculateOpportunity
  simp only [sampleConfig, sampleImpact, sampleMarketData]
  have habs : |(0.7 : ℚ) - 0.55| = 0.15 := by
    rw [abs_of_nonneg] <;> norm_num
  simp only [habs]
  congr 1
  · norm_num
  · split_ifs with h1 h2
    · exact absurd h1.2 (by norm_num)
    · rfl
    · exact absurd (by norm_num : (0.05 : ℚ) * 0.5 ≤ 0.15 * 0.75) h2

/-- C2 counterexample: on the spec's scenario the detector assigns the
action "monitor", not "investigate" (0.75 < 0.8). -/
theorem scenario_action_monitor_counterexample :
    ((detectOpportunities sampleConfig [sampleImpact]
        [("mkt-0001", sampleMarketData)] 0).map Opportunity.action = ["monitor"]) ∧
    ((detectOpportunities sampleConfig [sampleImpact]
        [("mkt-0001", sampleMarketData)] 0).map Opportunity.action ≠ ["investigate"]) := by
  rw [sampleDetect_eq 0, sampleOpportunity_eq 0]
  constructor
  · simp
  · simp

/-- C2 (amended): the scenario yields discrepancy 0.15, potential profit
0.1125 and action "monitor", and the opportunity is admitted into the
returned list. -/
theorem scenario_monitor_amended :
    detectOpportunities sampleConfig [sampleImpact] [("mkt-0001", sampleMarketData)] 0 =
      [{ id := generateOpportunityId sampleImpact 0
         impact_id := "imp-1"
         market_id := "mkt-0001"
         market_question := ""
         current_price := 0.55
         expected_price := 0.7
         discrepancy := 0.15
         potential_profit := 0.1125
         confidence := 0.75
         action := "monitor"
         timestamp := 0 }] ∧
    (0.05 : ℚ) ≤ 0.1125 := by
  constructor
  · rw [sampleDetect_eq 0, sampleOpportunity_eq 0]
  · norm_num

/-- C9 counterexample: two runs on identical inputs but different clock
reads return different lists (the stored `timestamp` and the generated
id embed the clock). -/
theorem detect_time_dependent_counterexample :
    detectOpportunities sampleConfig [sampleImpact] [("mkt-0001", sampleMarketData)] 0 ≠
      detectOpportunities sampleConfig [sampleImpact] [("mkt-0001", sampleMarketData)] 1 := by
  rw [sampleDetect_eq 0, sampleDetect_eq 1]
  intro h
  simp only [List.cons.injEq, and_true] at h
  have ht := congrArg Opportunity.timestamp h
  simp only [calculateOpportunity] at ht
  norm_num at ht

/-- The `potential_profit` computed by `_calculate_opportunity` does not
depend on the clock read. -/
theorem calculateOpportunity_potential_profit (cfg : DetectorConfig) (i : MarketImpact)
    (md : MarketData) (t : ℚ) :
    (calculateOpportunity cfg i md t).potential_profit
      = |i.expected_price - md.yes_price| * i.confidence := rfl

/-- The clock-independent projection of `_calculate_opportunity` is the
same for any two clock reads. -/
theorem calculateOpportunity_core_eq (cfg : DetectorConfig) (i : MarketImpact)
    (md : MarketData) (t1 t2 : ℚ) :
    (calculateOpportunity cfg i md t1).core = (calculateOpportunity cfg i md t2).core := by
  unfold calculateOpportunity Opportunity.core
  rfl

/-- C9 (amended): runs at possibly different clock reads agree on every
field except `id` and `timestamp`, and the output follows the input
assessment order (its projection to impact ids is a sublist of the input
ids in order). -/
theorem detect_deterministic_modulo_clock (cfg : DetectorConfig)
    (impacts : List MarketImpact) (market_data_map : List (String × MarketData))
    (t1 t2 : ℚ) :
    (detectOpportunities cfg impacts market_data_map t1).map Opportunity.core =
      (detectOpportunities cfg impacts market_data_map t2).map Opportunity.core ∧
    ((detectOpportunities cfg impacts market_data_map t1).map Opportunity.impact_id).Sublist
      (impacts.map MarketImpact.id) := by
  constructor
  · rw [detectOpportunities_eq_filterMap, detectOpportunities_eq_filterMap,
      List.map_filterMap, List.map_filterMap]
    apply List.filterMap_congr
    intro i _
    unfold detectOne
    split_ifs
    · rfl
    · rfl
    · cases market_data_map.lookup i.market_id with
      | none => rfl
      | some md =>
        have hcond : (calculateOpportunity cfg i md t1).is_profitable cfg.min_profit_margin
            = (calculateOpportunity cfg i md t2).is_profitable cfg.min_profit_margin := by
          unfold Opportunity.is_profitable
          rw [calculateOpportunity_potential_profit, calculateOpportunity_potential_profit]
        have hcore : (calculateOpportunity cfg i md t1).core
            = (calculateOpportunity cfg i md t2).core :=
          calculateOpportunity_core_eq cfg i md t1 t2
        show (if (calculateOpportunity cfg i md t1).is_profitable
            cfg.min_profit_margin = true
            then some (calculateOpportunity cfg i md t1) else none).map Opportunity.core
          = (if (calculateOpportunity cfg i md t2).is_profitable
            cfg.min_profit_margin = true
            then some (calculateOpportunity cfg i md t2) else none).map Opportunity.core
        by_cases hp : (calculateOpportunity cfg i md t2).is_profitable
            cfg.min_profit_margin = true
        · rw [hcond, if_pos hp, if_pos hp]
          simp only [Option.map_some']
          rw [hcore]
        · rw [hcond, if_neg hp, if_neg hp]
  · rw [detectOpportunities_eq_filterMap]
    apply filterMap_map_sublist
    intro a b hab
    unfold detectOne at hab
    split_ifs at hab
    split at hab
    · exact absurd hab (by simp)
    · next md _ =>
      replace hab : (if (calculateOpportunity cfg a md t1).is_profitable
          cfg.min_profit_margin = true
          then some (calculateOpportunity cfg a md t1) else none) = some b := hab
      by_cases hp : (calculateOpportunity cfg a md t1).is_profitable
          cfg.min_profit_margin = true
      · rw [if_pos hp] at hab
        cases Option.some.inj hab
        rfl
      · rw [if_neg hp] at hab
        exact absurd hab (by simp)

/-- C10: `get_recent` with `limit = 0` returns every stored entry, most
recent first, on both bounded stores (the slice `[-0:]` is the whole
list). -/
theorem get_recent_zero_returns_all (alerts : List ℕ) (metrics : List ℤ) :
    ThreadSafeAlertStore.get_recent alerts 0 = alerts.reverse ∧
    ThreadSafeMetricsStore.get_recent metrics 0 = metrics.reverse := by
  constructor <;>
    simp [ThreadSafeAlertStore.get_recent, ThreadSafeMetricsStore.get_recent, pySliceFrom]

/-- C7 counterexample: with configured capacity 0 the store does NOT
stay within its capacity: Python's `alerts[-0:]` is the whole list, so
one `add` leaves 1 entry in a capacity-0 store. -/
theorem alert_store_capacity_zero_counterexample :
    (ThreadSafeAlertStore.add 0 ([] : List ℕ) 42).length = 1 ∧
    ¬ ((ThreadSafeAlertStore.add 0 ([] : List ℕ) 42).length ≤ 0) := by
  have h : ThreadSafeAlertStore.add 0 ([] : List ℕ) 42 = [42] := by
    simp [ThreadSafeAlertStore.add, pySliceFrom]
  rw [h]
  simp

/-- C7 (amended): for every capacity `c >= 1`, `add` keeps the store at
most `c` entries (also over any whole sequence of adds from empty), and
an `add` on a full store drops exactly the oldest entry. -/
theorem alert_store_bounded_fifo (c : Int) (hc : 1 ≤ c) :
    (∀ (alerts : List ℕ) (a : ℕ), alerts.length ≤ c.toNat →
      ((ThreadSafeAlertStore.add c alerts a).length ≤ c.toNat ∧
        (alerts.length < c.toNat → ThreadSafeAlertStore.add c alerts a = alerts ++ [a]) ∧
        (alerts.length = c.toNat →
          ThreadSafeAlertStore.add c alerts a = alerts.tail ++ [a]))) ∧
    (∀ adds : List ℕ, ((adds.foldl (ThreadSafeAlertStore.add c) []).length ≤ c.toNat)) := by
  have hadd : ∀ (l : List ℕ) (a : ℕ), l.length ≤ c.toNat →
      (ThreadSafeAlertStore.add c l a).length ≤ c.toNat ∧
      (l.length < c.toNat → ThreadSafeAlertStore.add c l a = l ++ [a]) ∧
      (l.length = c.toNat → ThreadSafeAlertStore.add c l a = l.tail ++ [a]) := by
    intro l a hl
    simp only [ThreadSafeAlertStore.add]
    by_cases hfull : l.length = c.toNat
    · have hcond : c < (((l ++ [a]).length : ℕ) : Int) := by
        simp only [List.length_append, List.length_singleton]
        omega
      rw [if_pos hcond]
      unfold pySliceFrom
      have hneg : -c < 0 := by omega
      rw [if_pos hneg]
      have hdrop : ((((l ++ [a]).length : ℕ) : Int) + -c).toNat = 1 := by
        simp only [List.length_append, List.length_singleton]
        omega
      rw [hdrop]
      refine ⟨?_, fun hlt => absurd hfull (by omega), fun _ => ?_⟩
      · simp only [List.length_drop, List.length_append, List.length_singleton]
        omega
      · cases l with
        | nil => exfalso; simp only [List.length_nil] at hfull; omega
        | cons x xs => simp
    · have hlt : l.length < c.toNat := lt_of_le_of_ne hl hfull
      have hcond : ¬ (c < (((l ++ [a]).length : ℕ) : Int)) := by
        simp only [List.length_append, List.length_singleton]
        omega
      rw [if_neg hcond]
      exact ⟨by simp only [List.length_append, List.length_singleton]; omega,
        fun _ => rfl, fun heq => absurd heq hfull⟩
  refine ⟨hadd, fun adds => ?_⟩
  have hfold : ∀ (adds l : List ℕ), l.length ≤ c.toNat →
      ((adds.foldl (ThreadSafeAlertStore.add c) l).length ≤ c.toNat) := by
    intro adds
    induction adds with
    | nil => intro l hl; simpa using hl
    | cons x xs ih =>
      intro l hl
      simp only [List.foldl_cons]
      exact ih _ (hadd l x hl).1
  exact hfold adds [] (by simp)

/-- Witness for the amended C7 at capacity 2: a full store evicts its
oldest entry. -/
theorem alert_store_bounded_fifo_witness :
    ThreadSafeAlertStore.add 2 [1, 2] 3 = ([1, 2] : List ℕ).tail ++ [3] :=
  ((alert_store_bounded_fifo 2 (by decide)).1 [1, 2] 3 (by decide)).2.2 (by decide)

/-- C8 counterexample: a heartbeat 45 seconds old makes the file read
fail, and the health check falls back to the in-process flag - with the
flag set, the worker is still reported as running. -/
theorem stale_heartbeat_reports_running_counterexample :
    ServiceState.is_healthy ⟨true, true⟩ 45 (some staleFile) = true ∧
    ServiceState.statusWorkerRunning ⟨true, true⟩ 45 (some staleFile) = true ∧
    (30 : ℚ) < 45 - 0 := by
  have hread : readWorkerStatusFile 45 (some staleFile) = none := by
    simp only [readWorkerStatusFile, staleFile]
    norm_num
  refine ⟨?_, ?_, by norm_num⟩ <;>
    simp [ServiceState.is_healthy, ServiceState.statusWorkerRunning, hread]

/-- C8 (amended): with a stale heartbeat (>= 30 seconds old) the status
file read returns `None` and the health check falls back to the
IN-PROCESS flags: it reports the worker not running exactly when the
in-process flag is false (as in a separate web-server process), not
independently of that flag. -/
theorem stale_heartbeat_falls_back (st : ServiceStateData) (now heartbeat : ℚ)
    (d : WorkerStatusFile) (hhb : d.last_heartbeat = some heartbeat)
    (hstale : 30 ≤ now - heartbeat) :
    ServiceState.is_healthy st now (some d)
      = (st.worker_running && st.web_server_running) ∧
    ServiceState.statusWorkerRunning st now (some d) = st.worker_running := by
  have hread : readWorkerStatusFile now (some d) = none := by
    simp only [readWorkerStatusFile, hhb]
    rw [if_neg (not_lt.mpr hstale)]
  constructor <;>
    simp [ServiceState.is_healthy, ServiceState.statusWorkerRunning, hread]

/-- Witness for the amended C8: stale heartbeat plus a false in-process
flag reports unhealthy. -/
theorem stale_heartbeat_falls_back_witness :
    ServiceState.is_healthy ⟨false, true⟩ 45 (some staleFile) = false := by
  have h := (stale_heartbeat_falls_back ⟨false, true⟩ 45 0 staleFile rfl (by norm_num)).1
  simpa using h

/-- Step 1 of the C3 trace: first request, empty window. -/
theorem rlTrace_s1 : rlStep 2 ([] : List ℚ) 0 = (0, [0]) := by
  norm_num [rlStep]

/-- Step 2: second request at 0.5s, window not full. -/
theorem rlTrace_s2 : rlStep 2 [(0 : ℚ)] (1/2) = (1/2, [0, 1/2]) := by
  norm_num [rlStep, List.filter_cons, List.filter_nil]

/-- Step 3: third request at 0.6s finds the window full, sleeps until
1.0s, clears the window and records the pre-sleep arrival 0.6s. -/
theorem rlTrace_s3 : rlStep 2 [(0 : ℚ), 1/2] (3/5) = (1, [3/5]) := by
  norm_num [rlStep, List.filter_cons, List.filter_nil, Prod.mk.injEq]

/-- Step 4: fourth request at 1.05s sees only the 0.6s entry, issues
immediately. -/
theorem rlTrace_s4 : rlStep 2 [(3 : ℚ)/5] (21/20) = (21/20, [3/5, 21/20]) := by
  norm_num [rlStep, List.filter_cons, List.filter_nil]

/-- Step 5: fifth request at 1.1s finds the rebuilt window full, sleeps
until 1.6s. -/
theorem rlTrace_s5 : rlStep 2 [(3 : ℚ)/5, 21/20] (11/10) = (8/5, [11/10]) := by
  norm_num [rlStep, List.filter_cons, List.filter_nil, Prod.mk.injEq]

/-- C3: the rate limiter issues three requests (at 1.0s, 1.05s and
1.6s) inside the rolling 1-second window [1, 2), with `rate_limit = 2`,
on a sequentially realisable arrival trace: after sleeping, `_request`
resets `request_times` to `[]` and records the pre-sleep timestamp, so
the sliding window forgets issued requests. -/
theorem rate_limiter_window_violation :
    rlRun 2 [0, 1/2, 3/5, 21/20, 11/10] = [0, 1/2, 1, 21/20, 8/5] ∧
    rlSequential [0, 1/2, 3/5, 21/20, 11/10] [0, 1/2, 1, 21/20, 8/5] ∧
    (([0, 1/2, 1, 21/20, 8/5] : List ℚ).filter
      (fun t => decide (1 ≤ t ∧ t < 2))).length = 3 ∧
    2 < 3 := by
  refine ⟨?_, ?_, ?_, by norm_num⟩
  · simp only [rlRun, List.foldl, rlTrace_s1, rlTrace_s2, rlTrace_s3, rlTrace_s4,
      rlTrace_s5]
    rfl
  · intro p hp
    simp only [List.zip, List.drop, List.zipWith, List.mem_cons,
      List.not_mem_nil, or_false] at hp
    rcases hp with rfl | rfl | rfl | rfl <;> norm_num
  · norm_num [List.filter_cons, List.filter_nil]

/-- C4 counterexample: a non-2xx response does NOT propagate without
retry - `get_markets` retries it (both error kinds are the same
`PolymarketClientError`), so a 500 followed by a success returns the
success after 2 attempts. -/
theorem http_status_error_retried_counterexample :
    getMarketsWithRetry scriptHttp500ThenOk = (Except.ok "markets", 2) ∧
    (getMarketsWithRetry scriptHttp500ThenOk).2 ≠ 1 := by
  constructor
  · rfl
  · intro h
    simp [getMarketsWithRetry, tenacityAttempts, scriptHttp500ThenOk, requestOutcome] at h

/-- C4 (amended): only `get_markets` carries the retry decorator (3
attempts); it retries on every `PolymarketClientError`, hence on non-2xx
HTTP responses and network failures alike, returns the first success,
and surfaces the third consecutive failure. -/
theorem get_markets_retry_behavior (script : Nat → HttpAttempt) :
    (∀ b, script 0 = HttpAttempt.ok b → getMarketsWithRetry script = (Except.ok b, 1)) ∧
    (∀ e b, requestOutcome (script 0) = Except.error e → script 1 = HttpAttempt.ok b →
      getMarketsWithRetry script = (Except.ok b, 2)) ∧
    (∀ e0 e1 e2, requestOutcome (script 0) = Except.error e0 →
      requestOutcome (script 1) = Except.error e1 →
      requestOutcome (script 2) = Except.error e2 →
      getMarketsWithRetry script = (Except.error e2, 3)) := by
  refine ⟨?_, ?_, ?_⟩
  · intro b h
    simp [getMarketsWithRetry, tenacityAttempts, h, requestOutcome]
  · intro e b h0 h1
    have h1' : requestOutcome (script 1) = Except.ok b := by rw [h1]; rfl
    simp [getMarketsWithRetry, tenacityAttempts, h0, h1']
  · intro e0 e1 e2 h0 h1 h2
    simp [getMarketsWithRetry, tenacityAttempts, h0, h1, h2]

/-- Witness for the amended C4: an immediately successful script returns
on the first attempt. -/
theorem get_markets_retry_behavior_witness :
    getMarketsWithRetry (fun _ => HttpAttempt.ok "markets") = (Except.ok "markets", 1) :=
  (get_markets_retry_behavior (fun _ => HttpAttempt.ok "markets")).1 "markets" rfl

/-- The repair loop returns `none` exactly when every repair of the
original string fails to parse. -/
theorem tryRepairs_none_iff (s : String) (rs : List (String → String)) :
    tryRepairs s rs = none ↔ ∀ r ∈ rs, jsonLoads (r s) = none := by
  induction rs with
  | nil => simp [tryRepairs]
  | cons r rs ih =>
    simp only [tryRepairs]
    cases h : jsonLoads (r s) with
    | some v => simp [h, List.forall_mem_cons]
    | none => simp [h, ih, List.forall_mem_cons]

/-- A successful repair loop result is the parse of one of the repairs
applied to the original string. -/
theorem tryRepairs_some_imp (s : String) (rs : List (String → String)) (v : PyJson) :
    tryRepairs s rs = some v → ∃ r ∈ rs, jsonLoads (r s) = some v := by
  induction rs with
  | nil => intro h; simp [tryRepairs] at h
  | cons r rs ih =>
    intro h
    simp only [tryRepairs] at h
    cases hj : jsonLoads (r s) with
    | some w =>
      rw [hj] at h
      exact ⟨r, by simp, by rw [hj]; exact h⟩
    | none =>
      rw [hj] at h
      obtain ⟨r', hr', hv⟩ := ih h
      exact ⟨r', by simp [hr'], hv⟩

/-- C5 counterexample: on `{'a': 1,}` the code's `repair_json` (each
repair applied to the ORIGINAL string) returns `None`, while the
spec's cumulative chain of repairs parses to `{"a": 1}` (the
trailing-comma repair then the quote repair compose). -/
theorem repair_json_not_chained_counterexample :
    repair_json jstrBad = none ∧
    repairJsonChained jstrBad = some (PyJson.obj [("a", PyJson.num "1")]) := by
  constructor
  · rfl
  · rfl

/-- C5 (amended): `repair_json` tries a plain parse first and returns
it on success; otherwise it applies each textual repair INDEPENDENTLY
to the original string, returning the first successful parse; it
returns `None` (without raising) exactly when the plain parse and all
ten independent repair attempts fail. -/
theorem repair_json_first_success (s : String) :
    (∀ v, jsonLoads s = some v → repair_json s = some v) ∧
    (repair_json s = none ↔
      (jsonLoads s = none ∧ ∀ r ∈ repairs, jsonLoads (r s) = none)) ∧
    (∀ v, repair_json s = some v →
      jsonLoads s = some v ∨ ∃ r ∈ repairs, jsonLoads (r s) = some v) := by
  refine ⟨?_, ?_, ?_⟩
  · intro v h
    simp [repair_json, h]
  · unfold repair_json
    cases h : jsonLoads s with
    | some v => simp [h]
    | none => simp [h, tryRepairs_none_iff]
  · intro v h
    unfold repair_json at h
    cases hj : jsonLoads s with
    | some w =>
      rw [hj] at h
      exact Or.inl h
    | none =>
      rw [hj] at h
      exact Or.inr (tryRepairs_some_imp s repairs v h)

/-- Witness for the amended C5: a string that parses as-is is returned
by the plain parse. -/
theorem repair_json_first_success_witness :
    repair_json "[1]" = some (PyJson.arr [PyJson.num "1"]) :=
  (repair_json_first_success "[1]").1 (PyJson.arr [PyJson.num "1"]) rfl

/-- C6: when the news-fetch stage raises, its exception is absorbed in
that stage: the error string is recorded, the news list becomes empty,
every later stage still runs (markets are still fetched from the market
stage's own input), and the cycle completes with `cycle_end_time` set
and empty opportunity and alert lists. -/
theorem news_failure_cycle_completes (α : Type) (cfg : DetectorConfig) (query : String)
    (start now max_age endTime : ℚ) (cache : List String) (e : String)
    (marketsResult : Except String (List Market))
    (fetchData : Market → Except String MarketData)
    (analyze : NewsArticle → Market → Except String MarketImpact)
    (create_alert : Opportunity → NewsArticle → Market → String → Except String α) :
    (runCycle α cfg query start now max_age endTime cache (Except.error e)
      marketsResult fetchData analyze create_alert).cycle_end_time = some endTime ∧
    (runCycle α cfg query start now max_age endTime cache (Except.error e)
      marketsResult fetchData analyze create_alert).opportunities = [] ∧
    (runCycle α cfg query start now max_age endTime cache (Except.error e)
      marketsResult fetchData analyze create_alert).alerts = [] ∧
    (runCycle α cfg query start now max_age endTime cache (Except.error e)
      marketsResult fetchData analyze create_alert).news_articles = [] ∧
    ("News search failed: " ++ e) ∈ (runCycle α cfg query start now max_age endTime cache
      (Except.error e) marketsResult fetchData analyze create_alert).errors ∧
    (runCycle α cfg query start now max_age endTime cache (Except.error e)
      marketsResult fetchData analyze create_alert).markets =
      (match marketsResult with | Except.ok ms => ms | Except.error _ => []) := by
  cases marketsResult with
  | error em =>
    simp [runCycle, searchNews, fetchMarkets, analyzeImpacts, detectOpportunitiesNode,
      generateAlerts, initialCycleState, detectOpportunities]
  | ok ms =>
    simp [runCycle, searchNews, fetchMarkets, analyzeImpacts, detectOpportunitiesNode,
      generateAlerts, initialCycleState, detectOpportunities]
